import Mathlib

/-!
Shallow embedding of the YES24 calibre metadata-source plugin
(`__init__.py` and `worker.py`).

Python strings are modelled as Lean `String`/`List Char`; `None` as
`Option.none`; Python truthiness of strings/lists is made explicit.
External collaborators (calibre's `check_isbn`, `urllib.quote` composed
with the euc-kr encoder, the browser, and lxml's `fromstring`) are
parameters of the embedded functions: the plugin only composes them.
-/

namespace Yes24

/-! ## Python string primitives used by the plugin -/

/-- Python whitespace characters removed by `str.strip()`. -/
def pySpaceChar (c : Char) : Bool :=
  c = ' ' || c = '\t' || c = '\n' || c = '\x0d' || c = '\x0b' || c = '\x0c'

/-- Python `str.strip()` (no argument): drop leading and trailing whitespace. -/
def pyStrip (s : String) : String :=
  (((s.toList.dropWhile pySpaceChar).reverse.dropWhile pySpaceChar).reverse).asString

/-- Python `str.split(sep)` for a one-character separator, on char lists. -/
def splitOnChar (sep : Char) : List Char → List (List Char)
  | [] => [[]]
  | c :: rest =>
    if c = sep then [] :: splitOnChar sep rest
    else
      match splitOnChar sep rest with
      | [] => [[c]]
      | h :: t => (c :: h) :: t

/-- Python `str.split(sep)` for a one-character separator. -/
def pySplit (sep : Char) (s : String) : List String :=
  (splitOnChar sep s.toList).map List.asString

/-- Python truthiness of an optional string: `None` and `''` are falsy. -/
def strTruthy : Option String → Bool
  | none => false
  | some s => if s = "" then false else true

/-- Digit run to the natural number Python `int()` would produce. -/
def digitsToNat (cs : List Char) : Nat :=
  cs.foldl (fun n c => n * 10 + (c.toNat - 48)) 0

/-- Does the pattern (first argument) occur at the head of the list? -/
def startsWithList : List Char → List Char → Bool
  | [], _ => true
  | _ :: _, [] => false
  | p :: ps, c :: cs => p = c && startsWithList ps cs

/-! ## `__init__.py`: constants and identifiers -/

def BASE_URL : String := "http://www.yes24.com"

def BROWSE_URL : String := "http://www.yes24.com/24/Goods"

def SEARCH_URL : String := "http://www.yes24.com/searchcorner/Search?domain=BOOK"

/-- The two identifier keys the plugin reads from the `identifiers` dict. -/
structure Identifiers where
  yes24 : Option String := none
  isbn : Option String := none
deriving DecidableEq

/-! ## `YES24._create_query`

`check_isbn` (calibre) and `quoteEnc` (`urllib.quote` of the euc-kr
encoding of a token) are external collaborators passed as parameters. -/

def create_query (check_isbn : Option String → Option String)
    (quoteEnc : String → String)
    (title : Option String) (authors : List String) (ids : Identifiers) :
    Option String :=
  match check_isbn ids.isbn with
  | some isbn => some (SEARCH_URL ++ "&query=" ++ isbn)
  | none =>
    let titleTokens : List String :=
      match title with
      | some t => if t = "" then [] else (pySplit ' ' t).map quoteEnc
      | none => []
    let authorTokens : List String :=
      match authors with
      | [] => []
      | a :: _ => (pySplit ' ' a).map quoteEnc
    let tokens := titleTokens ++ authorTokens
    if tokens = [] then none
    else some (SEARCH_URL ++ "&query=" ++ String.intercalate "+" tokens)

/-- The query-construction step of `YES24.identify`: with a truthy `yes24`
identifier it goes straight to the browse URL; otherwise it builds a search
query, and with no query it logs and returns without searching. -/
inductive IdentifyQueryStep where
  | browse (url : String)
  | insufficient
  | search (query : String)
deriving DecidableEq

def identifyQueryStep (check_isbn : Option String → Option String)
    (quoteEnc : String → String)
    (title : Option String) (authors : List String) (ids : Identifiers) :
    IdentifyQueryStep :=
  if strTruthy ids.yes24 then .browse (BROWSE_URL ++ "/" ++ ids.yes24.getD "")
  else
    match create_query check_isbn quoteEnc title authors ids with
    | none => .insufficient
    | some q => .search q

/-! ## `YES24._parse_search_results`

Each element of `results` stands for one `//td[@class="goods_infogrp"]`
node, represented by the list of its `.//p[contains(@class,"goods_name")]/a/@href`
values in document order.  Indexing `[0]` on an empty href list raises
`IndexError`, which propagates out of the method (carrying the matches
appended so far, since the Python list is mutated in place). -/

def parseSearchLoop : List (List String) → List String →
    Except (List String) (List String)
  | [], ms => .ok ms
  | r :: rest, ms =>
    match r with
    | [] => .error ms
    | href :: _ => parseSearchLoop rest (ms ++ [BASE_URL ++ href])

def parse_search_results (results : List (List String)) (ms : List String) :
    Except (List String) (List String) :=
  if results.isEmpty then .ok ms
  else parseSearchLoop results ms

/-! ## `worker.py`: the detail page model

A detail page is modelled at the granularity of the fixed XPath queries the
worker performs.  For node texts, the outer `Option` is whether the node list
is non-empty and the inner `Option` is the node's `.text` (which lxml reports
as `None` when the element has no direct text, making the subsequent
`.strip()` raise `AttributeError`).  Attribute queries (`@content`) yield
plain strings, and `text_content()`/`tostring` always yield strings. -/

structure Page where
  /-- First `//h1/a` node's `.text`. -/
  h1aText : Option (Option String) := none
  /-- First `//meta[@property="og:title"]/@content` value. -/
  ogTitle : Option String := none
  /-- First `//span[@class="series"]/a` node's `.text`. -/
  seriesText : Option (Option String) := none
  /-- First `//div[@id="title"]/p` node's `text_content()`. -/
  titlePText : Option String := none
  /-- First `//dd[@class="isbn10"]/p` node's `.text`. -/
  isbn10Text : Option (Option String) := none
  /-- First `//dd[@class="pdDate"]/p` node's `.text`. -/
  pdDateText : Option (Option String) := none
  /-- `tostring` of the first `//div/h2/img[@title="책소개"]/../../p` node. -/
  descHtml : Option String := none
  /-- First `//meta[@property="og:image"]/@content` value. -/
  ogImage : Option String := none
deriving DecidableEq

/-! ## `Worker.parse_yes24_id`

`re.search('yes24.com/24/[Gg]oods/(\d+)', url)`: leftmost match, `.` a
wildcard, `\d+` a maximal digit run; no match raises `AttributeError` on
`.groups`. -/

def matchGoodsAt (cs : List Char) : Option (List Char) :=
  if startsWithList "yes24".toList cs then
    match cs.drop 5 with
    | _ :: rest1 =>
      if startsWithList "com/24/".toList rest1 then
        match rest1.drop 7 with
        | g :: rest2 =>
          if (g = 'G' || g = 'g') && startsWithList "oods/".toList rest2 then
            let ds := (rest2.drop 5).takeWhile Char.isDigit
            if ds.isEmpty then none else some ds
          else none
        | [] => none
      else none
    | [] => none
  else none

def searchGoodsId : List Char → Option (List Char)
  | [] => none
  | c :: rest =>
    match matchGoodsAt (c :: rest) with
    | some ds => some ds
    | none => searchGoodsId rest

def parse_yes24_id (url : String) : Except Unit String :=
  match searchGoodsId url.toList with
  | some ds => .ok ds.asString
  | none => .error ()

/-! ## `Worker.parse_title_series` -/

/-- Python `float()` on the decimal literals this plugin encounters
(optional sign, digits with an optional fractional part, surrounding
whitespace); anything else raises `ValueError` (`none`). -/
def parseUnsignedFloat (cs : List Char) : Option ℚ :=
  let ip := cs.takeWhile Char.isDigit
  match cs.dropWhile Char.isDigit with
  | [] => if ip.isEmpty then none else some ((digitsToNat ip : ℚ))
  | '.' :: r2 =>
    let fp := r2.takeWhile Char.isDigit
    if (r2.dropWhile Char.isDigit).isEmpty && !(ip.isEmpty && fp.isEmpty) then
      some ((digitsToNat ip : ℚ) + (digitsToNat fp : ℚ) / ((10 : ℚ) ^ fp.length))
    else none
  | _ => none

def pyFloat (s : String) : Option ℚ :=
  match (pyStrip s).toList with
  | '+' :: r => parseUnsignedFloat r
  | '-' :: r => (parseUnsignedFloat r).map Neg.neg
  | r => parseUnsignedFloat r

/-- Python `str.rsplit('-', 1)`: split off the part after the last dash. -/
def rsplit1dash (s : String) : List String :=
  match pySplit '-' s with
  | [] => [s]
  | [p0] => [p0]
  | parts => [String.intercalate "-" parts.dropLast, parts.getLastD ""]

/-- `Worker.parse_title_series`.  The `og:title` fallback takes `.text` of an
attribute string, which always raises `AttributeError`; `.strip()` on a `None`
text raises; `float()` on a malformed series index raises. -/
def parse_title_series (p : Page) :
    Except Unit (Option String × Option String × Option ℚ) :=
  match p.h1aText with
  | none =>
    match p.ogTitle with
    | some _ => .error ()
    | none => .ok (none, none, none)
  | some none => .error ()
  | some (some t) =>
    let title := pyStrip t
    match p.seriesText with
    | none => .ok (some title, none, none)
    | some none => .error ()
    | some (some st) =>
      match rsplit1dash (pyStrip st) with
      | [n, idx] =>
        match pyFloat idx with
        | some q => .ok (some title, some n, some q)
        | none => .error ()
      | grp => .ok (some title, some (grp.headD ""), none)

/-! ## The remaining field parsers -/

def parse_authors (p : Page) : Option (List String) :=
  match p.titlePText with
  | none => none
  | some t => some ((pySplit ',' ((pySplit '|' t).headD "")).map pyStrip)

def parse_isbn (p : Page) : Except Unit (Option String) :=
  match p.isbn10Text with
  | none => .ok none
  | some none => .error ()
  | some (some t) => .ok (some (pyStrip t))

def parse_publisher (p : Page) : Option String :=
  match p.titlePText with
  | none => none
  | some t =>
    let bgrp := pySplit '|' t
    if bgrp.length > 3 then some (pyStrip (bgrp.getD (bgrp.length - 2) ""))
    else some (pyStrip (bgrp.getLastD ""))

/-- `datetime.datetime` field bounds: `MINYEAR = 1`, `MAXYEAR = 9999`. -/
structure PyDate where
  year : Nat
  month : Nat
  day : Nat
deriving DecidableEq

def isLeap (y : Nat) : Bool :=
  (y % 4 = 0 && !(y % 100 = 0)) || y % 400 = 0

def daysInMonth (y m : Nat) : Nat :=
  if m = 2 then (if isLeap y then 29 else 28)
  else if m = 4 || m = 6 || m = 9 || m = 11 then 30
  else 31

def dateValid (y m d : Nat) : Bool :=
  1 ≤ y && y ≤ 9999 && 1 ≤ m && m ≤ 12 && 1 ≤ d && d ≤ daysInMonth y m

/-- The anchored regex `^(\d+)년 (\d+)월 (\d+)일$` of `_convert_date_text`
(`$` also matches just before one final newline). -/
def parseDateGroups (cs : List Char) : Option (Nat × Nat × Nat) :=
  let yd := cs.takeWhile Char.isDigit
  if yd.isEmpty then none else
  match cs.dropWhile Char.isDigit with
  | '년' :: ' ' :: r2 =>
    let md := r2.takeWhile Char.isDigit
    if md.isEmpty then none else
    match r2.dropWhile Char.isDigit with
    | '월' :: ' ' :: r4 =>
      let dd := r4.takeWhile Char.isDigit
      if dd.isEmpty then none else
      match r4.dropWhile Char.isDigit with
      | ['일'] => some (digitsToNat yd, digitsToNat md, digitsToNat dd)
      | ['일', '\n'] => some (digitsToNat yd, digitsToNat md, digitsToNat dd)
      | _ => none
    | _ => none
  | _ => none

/-- `Worker._convert_date_text`: a failed regex match raises on `.group`,
and out-of-range fields make the `datetime.datetime` constructor raise. -/
def convertDateText (s : String) : Except Unit PyDate :=
  match parseDateGroups s.toList with
  | some (y, m, d) => if dateValid y m d then .ok ⟨y, m, d⟩ else .error ()
  | none => .error ()

def parse_published_date (p : Page) : Except Unit (Option PyDate) :=
  match p.pdDateText with
  | none => .ok none
  | some none => .error ()
  | some (some t) =>
    match convertDateText (pyStrip t) with
    | .ok d => .ok (some d)
    | .error e => .error e

def parse_comments (p : Page) : Option String :=
  match p.descHtml with
  | none => none
  | some h =>
    let c := pyStrip h
    if c = "" then none else some c

/-! ## `Worker.parse_cover` -/

/-- Does the char list end with `/M`? -/
def endsWithSlashM (cs : List Char) : Bool :=
  match cs.reverse with
  | 'M' :: '/' :: _ => true
  | _ => false

/-- Python `str.replace('/M', '/L')`: every (leftmost, non-overlapping)
occurrence is replaced. -/
def replaceSlashM : List Char → List Char
  | [] => []
  | '/' :: 'M' :: rest => '/' :: 'L' :: replaceSlashM rest
  | c :: rest => c :: replaceSlashM rest

/-- Result of `parse_cover`: the returned URL, the
`cache_identifier_to_cover_url` entry it records, and the amount added to
`self.relevance`. -/
structure CoverResult where
  url : Option String := none
  cacheAdd : Option (String × String) := none
  relevanceDelta : Nat := 0
deriving DecidableEq

def parse_cover (yes24_id : Option String) (p : Page) : CoverResult :=
  match p.ogImage with
  | none => {}
  | some s =>
    let u0 := pyStrip s
    let u := if endsWithSlashM u0.toList then (replaceSlashM u0.toList).asString
             else u0
    { url := some u
      cacheAdd := if strTruthy yes24_id then some (yes24_id.getD "", u) else none
      relevanceDelta := 5 }

/-! ## `Worker.parse_details` -/

/-- The calibre `Metadata` fields this worker touches; fields the worker may
leave unset are `Option`s defaulting to `none` (calibre's null values). -/
structure Metadata where
  title : String
  authors : List String
  series : Option String := none
  series_index : Option ℚ := none
  yes24 : Option String := none
  isbn : Option String := none
  comments : Option String := none
  has_cover : Bool := false
  cover_url : Option String := none
  publisher : Option String := none
  pubdate : Option PyDate := none
  language : Option String := none
  source_relevance : Option Nat := none
deriving DecidableEq

/-- Everything a successful `parse_details` run does: the record put on the
result queue and the two cache insertions (`cache_isbn_to_identifier` and
`cache_identifier_to_cover_url`). -/
structure WorkerOut where
  mi : Metadata
  isbnCacheAdd : Option (String × String) := none
  coverCacheAdd : Option (String × String) := none
deriving DecidableEq

/-- `yes24_id` as computed at the top of `parse_details` (exception caught,
leaving `None`). -/
def yes24IdOf (url : String) : Option String :=
  match parse_yes24_id url with
  | .ok v => some v
  | .error _ => none

/-- `(title, series, series_index)` as computed in `parse_details`
(exception caught, leaving all three `None`). -/
def titleSeriesOf (p : Page) : Option String × Option String × Option ℚ :=
  match parse_title_series p with
  | .ok v => v
  | .error _ => (none, none, none)

/-- Python truthiness of `authors` in `parse_details` (`None` from
`parse_authors`, or an empty list, is falsy; exceptions cannot occur). -/
def authorsTruthy (p : Page) : Bool :=
  match parse_authors p with
  | some l => !l.isEmpty
  | none => false

/-- The `if not title or not authors or not yes24_id: return` guard. -/
def requiredOk (url : String) (p : Page) : Bool :=
  strTruthy (titleSeriesOf p).1 && authorsTruthy p && strTruthy (yes24IdOf url)

def parse_details (url : String) (relevance : Nat) (p : Page) : Option WorkerOut :=
  if requiredOk url p then
    let yid := (yes24IdOf url).getD ""
    let tss := titleSeriesOf p
    let isbnV : Option String :=
      match parse_isbn p with
      | .ok (some s) => if s = "" then none else some s
      | _ => none
    let coverRes := parse_cover (yes24IdOf url) p
    some
      { mi :=
        { title := tss.1.getD ""
          authors := (parse_authors p).getD []
          series := if strTruthy tss.2.1 then tss.2.1 else none
          series_index := if strTruthy tss.2.1 then tss.2.2 else none
          yes24 := some yid
          isbn := isbnV
          comments := parse_comments p
          has_cover := strTruthy coverRes.url
          cover_url := coverRes.url
          publisher := parse_publisher p
          pubdate :=
            match parse_published_date p with
            | .ok v => v
            | .error _ => none
          language := some "ko"
          source_relevance := some (relevance + coverRes.relevanceDelta) }
        isbnCacheAdd := isbnV.map (fun i => (i, yid))
        coverCacheAdd := coverRes.cacheAdd }
  else none

/-! ## `Worker.get_details`

The browser and lxml are external: a fetch either fails (404 / timeout /
other exception) or yields the decoded page text together with the `Page`
that `fromstring` would produce from it (`none` when `fromstring` raises). -/

inductive FetchErr where
  | notFound404
  | timedOut
  | other
deriving DecidableEq

inductive FetchOutcome where
  | failed (e : FetchErr)
  | ok (raw : String) (parsed : Option Page)
deriving DecidableEq

/-- Does `HTTP 404.` occur in the text? -/
def hasHTTP404 : List Char → Bool
  | [] => false
  | c :: rest => startsWithList "HTTP 404.".toList (c :: rest) || hasHTTP404 rest

def get_details (url : String) (relevance : Nat) (f : FetchOutcome) :
    Option WorkerOut :=
  match f with
  | .failed _ => none
  | .ok raw parsed =>
    let raw := pyStrip raw
    if hasHTTP404 raw.toList then none
    else
      match parsed with
      | none => none
      | some root => parse_details url relevance root

/-- `get_details` performs exactly one `open_novisit` call (the second
component counts the browser calls in the straight-line source, which has no
retry loop): only the first outcome of the browser is ever consumed. -/
def get_details_run (url : String) (relevance : Nat)
    (browser : Nat → FetchOutcome) : Option WorkerOut × Nat :=
  (get_details url relevance (browser 0), 1)

/-! ## `YES24.identify`: worker spawning and the result queue -/

structure Worker where
  url : String
  relevance : Nat
deriving DecidableEq

/-- `[Worker(url, ..., i, ...) for i, url in enumerate(matches)]`. -/
def mkWorkersFrom (i : Nat) : List String → List Worker
  | [] => []
  | u :: rest => ⟨u, i⟩ :: mkWorkersFrom (i + 1) rest

def mkWorkers (ms : List String) : List Worker :=
  mkWorkersFrom 0 ms

/-- The records a worker puts on the result queue during one run. -/
def workerQueuePuts (w : Worker) (f : FetchOutcome) : List Metadata :=
  match get_details w.url w.relevance f with
  | some out => [out.mi]
  | none => []

/-- All workers' queue outputs, each worker fed the fetch outcome of its own
URL (`pages i` is what worker `i`'s clone browser returns). -/
def runWorkers (ms : List String) (pages : Nat → FetchOutcome) :
    List (Option WorkerOut) :=
  (mkWorkers ms).map (fun w => get_details w.url w.relevance (pages w.relevance))

/-! ## The shared id→URL caches

calibre's `Source` base class keeps two session dicts,
`_isbn_to_identifier_cache` and `_identifier_to_cover_url_cache`; assignment
overwrites the value of an existing key and nothing is ever deleted.  A dict
is modelled as an association list where insertion prepends and lookup takes
the most recent entry. -/

structure Cache where
  isbnToId : List (String × String) := []
  idToCover : List (String × String) := []
deriving DecidableEq

def lookup1 (k : String) : List (String × String) → Option String
  | [] => none
  | (k2, v) :: rest => if k2 = k then some v else lookup1 k rest

def cacheApply (c : Cache) (out : WorkerOut) : Cache :=
  { isbnToId := (match out.isbnCacheAdd with | some e => [e] | none => []) ++ c.isbnToId
    idToCover := (match out.coverCacheAdd with | some e => [e] | none => []) ++ c.idToCover }

/-- The effect of one complete worker run on the shared caches. -/
def runWorkerOnCache (c : Cache) (url : String) (relevance : Nat)
    (f : FetchOutcome) : Cache :=
  match get_details url relevance f with
  | some out => cacheApply c out
  | none => c

/-- `YES24.get_cached_cover_url`: a present (even empty) `yes24` identifier
pre-empts the isbn lookup (`is None` test), then Python truthiness gates the
cover lookup. -/
def get_cached_cover_url (c : Cache) (ids : Identifiers) : Option String :=
  let yid : Option String :=
    match ids.yes24 with
    | some y => some y
    | none =>
      match ids.isbn with
      | some i => lookup1 i c.isbnToId
      | none => none
  match yid with
  | some y => if y = "" then none else lookup1 y c.idToCover
  | none => none

/-! ## The `identify` wait loop

```
while not abort.is_set():
    a_worker_is_alive = False
    for w in workers:
        w.join(0.2)
        if abort.is_set(): break
        if w.is_alive(): a_worker_is_alive = True
    if not a_worker_is_alive: break
```

The environment is a sequence of snapshots, one per observation
(`abort.is_set()` / `w.is_alive()` call); time is the observation counter.
Real executions satisfy: an abort flag never unsets, and a finished thread
never comes back alive. -/

structure Snap where
  abort : Bool
  alive : List Bool
deriving DecidableEq

def aliveAt (s : Snap) (i : Nat) : Bool :=
  s.alive.getD i false

/-- The `for w in workers` sweep: at time `t` the abort check for the current
worker, at `t + 1` its liveness check; returns the time after the sweep and
the final `a_worker_is_alive`. -/
def innerLoop (s : Nat → Snap) : List Nat → Nat → Bool → Nat × Bool
  | [], t, acc => (t, acc)
  | i :: rest, t, acc =>
    if (s t).abort then (t, acc)
    else innerLoop s rest (t + 2) (acc || aliveAt (s (t + 1)) i)

/-- The `while` loop; returns the observation time at which `identify` stops
waiting (`none` only if the fuel runs out first). -/
def identifyWait (s : Nat → Snap) (ws : List Nat) : Nat → Nat → Option Nat
  | 0, _ => none
  | fuel + 1, t =>
    if (s t).abort then some t
    else
      match innerLoop s ws (t + 1) false with
      | (tNext, acc) => if acc then identifyWait s ws fuel tNext else some tNext

/-! ## Helper lemmas -/

theorem splitOnChar_ne_nil (sep : Char) (cs : List Char) :
    splitOnChar sep cs ≠ [] := by
  induction cs with
  | nil => simp [splitOnChar]
  | cons c rest ih =>
    simp only [splitOnChar]
    by_cases h : c = sep
    · simp [h]
    · simp only [h, if_false]
      cases hsp : splitOnChar sep rest <;> simp

theorem pySplit_ne_nil (sep : Char) (s : String) : pySplit sep s ≠ [] := by
  simp only [pySplit, ne_eq, List.map_eq_nil_iff]
  exact splitOnChar_ne_nil sep s.toList

theorem parseSearchLoop_spec (results : List (List String)) (ms : List String)
    (h : ∀ r ∈ results, r ≠ []) :
    parseSearchLoop results ms =
      .ok (ms ++ results.map (fun r => BASE_URL ++ r.headD "")) := by
  induction results generalizing ms with
  | nil => simp [parseSearchLoop]
  | cons r rest ih =>
    cases r with
    | nil => exact absurd rfl (h [] (by simp))
    | cons href tl =>
      have hrest : ∀ q ∈ rest, q ≠ [] := fun q hq => h q (by simp [hq])
      simp [parseSearchLoop, ih _ hrest, List.append_assoc]

/-- C5: `_parse_search_results` turns each `goods_infogrp` cell of the result
listing, in document order, into `BASE_URL` plus the href of the cell's first
`goods_name` anchor, appended to the shared matches list; an empty listing
leaves the matches list unchanged. -/
theorem parse_search_results_spec (results : List (List String))
    (ms : List String) (h : ∀ r ∈ results, r ≠ []) :
    parse_search_results results ms =
      .ok (ms ++ results.map (fun r => BASE_URL ++ r.headD "")) ∧
    parse_search_results [] ms = .ok ms := by
  refine ⟨?_, by simp [parse_search_results]⟩
  cases results with
  | nil => simp [parse_search_results]
  | cons r rest =>
    simp only [parse_search_results, List.isEmpty_cons, if_false, Bool.false_eq_true]
    exact parseSearchLoop_spec _ _ h

theorem parse_search_results_spec_witness :
    parse_search_results [["/24/Goods/1"], ["/24/Goods/2", "x"]] ["m0"] =
      .ok ["m0", "http://www.yes24.com/24/Goods/1", "http://www.yes24.com/24/Goods/2"] ∧
    parse_search_results [] ["m0"] = .ok ["m0"] :=
  parse_search_results_spec [["/24/Goods/1"], ["/24/Goods/2", "x"]] ["m0"]
    (by decide)

/-- C4: `_create_query` returns `None` exactly when no identifier passes ISBN
validation, the title is absent or empty, and the authors list is empty; in
that situation (and no `yes24` identifier) `identify` takes the
"Insufficient metadata" exit and performs no search. -/
theorem create_query_none_iff (ci : Option String → Option String)
    (qe : String → String) (title : Option String) (authors : List String)
    (ids : Identifiers) :
    (create_query ci qe title authors ids = none ↔
      ci ids.isbn = none ∧ strTruthy title = false ∧ authors = []) ∧
    (strTruthy ids.yes24 = false →
      (identifyQueryStep ci qe title authors ids = .insufficient ↔
        create_query ci qe title authors ids = none)) := by
  constructor
  · cases h : ci ids.isbn with
    | some s => simp [create_query, h]
    | none =>
      simp only [create_query, h, true_and]
      cases title with
      | none =>
        cases authors with
        | nil => simp [strTruthy]
        | cons a rest =>
          have := pySplit_ne_nil ' ' a
          simp only [List.nil_append, List.map_eq_nil_iff]
          simp [this, strTruthy]
      | some t =>
        by_cases ht : t = ""
        · subst ht
          cases authors with
          | nil => simp [strTruthy]
          | cons a rest =>
            have := pySplit_ne_nil ' ' a
            simp only [if_pos rfl, List.nil_append, List.map_eq_nil_iff]
            simp [this, strTruthy]
        · have := pySplit_ne_nil ' ' t
          have htoks : ¬((pySplit ' ' t).map qe ++
              (match authors with
               | [] => []
               | a :: _ => (pySplit ' ' a).map qe) = []) := by
            simp [List.append_eq_nil, List.map_eq_nil_iff, this]
          simp [ht, htoks, strTruthy]
  · intro hy
    simp only [identifyQueryStep, hy, Bool.false_eq_true, if_false]
    cases h : create_query ci qe title authors ids <;> simp [h]

theorem create_query_none_iff_witness :
    (create_query (fun _ => none) id none [] {} = none ↔
      ((fun _ => (none : Option String)) ({} : Identifiers).isbn = none ∧
        strTruthy none = false ∧ ([] : List String) = [])) ∧
    (strTruthy ({} : Identifiers).yes24 = false →
      (identifyQueryStep (fun _ => none) id none [] {} = .insufficient ↔
        create_query (fun _ => none) id none [] {} = none)) :=
  create_query_none_iff (fun _ => none) id none [] {}

/-- C9: a validated ISBN pre-empts everything: the query is the search URL
with the (normalised) ISBN as sole term, whatever the title and authors; and
without one, authors beyond the first never influence the query. -/
theorem create_query_isbn_priority :
    (∀ (ci : Option String → Option String) (qe : String → String)
        (title : Option String) (authors : List String) (ids : Identifiers)
        (s : String), ci ids.isbn = some s →
      create_query ci qe title authors ids =
        some (SEARCH_URL ++ "&query=" ++ s)) ∧
    (∀ (ci : Option String → Option String) (qe : String → String)
        (title : Option String) (a : String) (rest1 rest2 : List String)
        (ids : Identifiers),
      create_query ci qe title (a :: rest1) ids =
        create_query ci qe title (a :: rest2) ids) := by
  constructor
  · intro ci qe title authors ids s h
    simp [create_query, h]
  · intro ci qe title a rest1 rest2 ids
    cases h : ci ids.isbn <;> simp [create_query, h]

theorem create_query_isbn_priority_witness :
    create_query (fun _ => some "9788983920683") id (some "칼의 노래") ["김훈"]
        { isbn := some "978-89-8392-068-3" } =
      some (SEARCH_URL ++ "&query=" ++ "9788983920683") ∧
    create_query (fun _ => none) id (some "t") ["a", "b"] {} =
      create_query (fun _ => none) id (some "t") ["a", "c"] {} :=
  ⟨create_query_isbn_priority.1 (fun _ => some "9788983920683") id
      (some "칼의 노래") ["김훈"] { isbn := some "978-89-8392-068-3" }
      "9788983920683" rfl,
    create_query_isbn_priority.2 (fun _ => none) id (some "t") "a" ["b"] ["c"] {}⟩

/-- C7: each worker performs a single best-effort fetch: the result is a
function of the browser's first (and only) response, the call count is one,
and on any fetch failure (404, timeout or other) the worker returns without
putting anything on the result queue. -/
theorem get_details_single_fetch_no_retry (url : String) (relevance : Nat)
    (e : FetchErr) :
    get_details url relevance (.failed e) = none ∧
    workerQueuePuts ⟨url, relevance⟩ (.failed e) = [] ∧
    (∀ browser : Nat → FetchOutcome,
      get_details_run url relevance browser =
        (get_details url relevance (browser 0), 1)) :=
  ⟨rfl, rfl, fun _ => rfl⟩

/-- C10 counterexample: `str.replace('/M', '/L')` replaces every occurrence,
so on `http://img.yes24.com/M/goods/72289/M` the trailing `/M` is rewritten
too, not kept as the claim states. -/
def coverCexPage : Page := { ogImage := some "http://img.yes24.com/M/goods/72289/M" }

theorem parse_cover_replaces_all_cex :
    (parse_cover (some "72289") coverCexPage).url =
      some "http://img.yes24.com/L/goods/72289/L" ∧
    ¬ (parse_cover (some "72289") coverCexPage).url =
      some "http://img.yes24.com/L/goods/72289/M" :=
  ⟨rfl, by decide⟩

/-- C10 (amended): for an `og:image` URL, `parse_cover` returns it (stripped)
unchanged when it does not end in `/M`, and with every occurrence of `/M`
replaced by `/L` when it does; in either case the URL is cached under the
worker's yes24 id when that id is truthy, and the relevance grows by 5. -/
theorem parse_cover_url_rewrite_amended (yid : Option String) (p : Page)
    (s : String) (h : p.ogImage = some s) :
    (endsWithSlashM (pyStrip s).toList = false →
      (parse_cover yid p).url = some (pyStrip s)) ∧
    (endsWithSlashM (pyStrip s).toList = true →
      (parse_cover yid p).url = some (replaceSlashM (pyStrip s).toList).asString) ∧
    (parse_cover yid p).relevanceDelta = 5 ∧
    (strTruthy yid = true →
      (parse_cover yid p).cacheAdd =
        some (yid.getD "", ((parse_cover yid p).url).getD "")) ∧
    (strTruthy yid = false → (parse_cover yid p).cacheAdd = none) := by
  refine ⟨fun hef => ?_, fun hef => ?_, by simp [parse_cover, h],
    fun hy => ?_, fun hy => by simp [parse_cover, h, hy]⟩
  · have hef2 : endsWithSlashM (pyStrip s).data = false := hef
    simp [parse_cover, h, hef2]
  · have hef2 : endsWithSlashM (pyStrip s).data = true := hef
    simp [parse_cover, h, hef2]
  · by_cases he : endsWithSlashM (pyStrip s).data <;> simp [parse_cover, h, hy, he]

theorem parse_cover_url_rewrite_amended_witness :
    (parse_cover (some "72289") coverCexPage).url =
      some (replaceSlashM (pyStrip "http://img.yes24.com/M/goods/72289/M").toList).asString ∧
    (parse_cover (some "72289") coverCexPage).cacheAdd =
      some ((some "72289" : Option String).getD "",
        ((parse_cover (some "72289") coverCexPage).url).getD "") ∧
    (parse_cover (none : Option String) coverCexPage).cacheAdd = none := by
  have h1 := parse_cover_url_rewrite_amended (some "72289") coverCexPage
    "http://img.yes24.com/M/goods/72289/M" rfl
  have h2 := parse_cover_url_rewrite_amended none coverCexPage
    "http://img.yes24.com/M/goods/72289/M" rfl
  exact ⟨h1.2.1 rfl, h1.2.2.2.1 rfl, h2.2.2.2.2 rfl⟩

/-- C1: once the required title / authors / yes24-id guard passes, the record
is always produced, and each of the five optional-field parsers only
influences its own field: an exception from `parse_isbn` or
`parse_published_date` (the two that can raise) leaves just that field unset,
while comments, cover and publisher always carry their own parser's value. -/
theorem parse_details_isolates_field_errors (url : String) (relevance : Nat)
    (p : Page) (h : requiredOk url p = true) :
    ∃ out, parse_details url relevance p = some out ∧
      (parse_isbn p = .error () → out.mi.isbn = none) ∧
      (∀ s, parse_isbn p = .ok (some s) → ¬s = "" → out.mi.isbn = some s) ∧
      (parse_published_date p = .error () → out.mi.pubdate = none) ∧
      (∀ d, parse_published_date p = .ok d → out.mi.pubdate = d) ∧
      out.mi.comments = parse_comments p ∧
      out.mi.publisher = parse_publisher p ∧
      out.mi.cover_url = (parse_cover (yes24IdOf url) p).url ∧
      out.mi.title = (titleSeriesOf p).1.getD "" ∧
      out.mi.authors = (parse_authors p).getD [] := by
  refine ⟨_, by rw [parse_details, if_pos h], ?_, ?_, ?_, ?_, rfl, rfl, rfl, rfl, rfl⟩
  · intro hi
    simp [hi]
  · intro s hi hs
    simp [hi, hs]
  · intro hd
    simp [hd]
  · intro d hd
    simp [hd]

def c1Page : Page :=
  { h1aText := some (some "칼의 노래")
    titlePText := some "김훈 | 생각의나무"
    isbn10Text := some none
    pdDateText := some (some "2011-08-30")
    descHtml := some "<p>소개</p>" }

def c1Url : String := "http://www.yes24.com/24/Goods/6185205"

theorem parse_details_isolates_field_errors_witness :
    requiredOk c1Url c1Page = true ∧
    parse_isbn c1Page = .error () ∧
    parse_published_date c1Page = .error () ∧
    ∃ out, parse_details c1Url 7 c1Page = some out ∧
      (parse_isbn c1Page = .error () → out.mi.isbn = none) ∧
      (∀ s, parse_isbn c1Page = .ok (some s) → ¬s = "" → out.mi.isbn = some s) ∧
      (parse_published_date c1Page = .error () → out.mi.pubdate = none) ∧
      (∀ d, parse_published_date c1Page = .ok d → out.mi.pubdate = d) ∧
      out.mi.comments = parse_comments c1Page ∧
      out.mi.publisher = parse_publisher c1Page ∧
      out.mi.cover_url = (parse_cover (yes24IdOf c1Url) c1Page).url ∧
      out.mi.title = (titleSeriesOf c1Page).1.getD "" ∧
      out.mi.authors = (parse_authors c1Page).getD [] :=
  ⟨rfl, rfl, rfl, parse_details_isolates_field_errors c1Url 7 c1Page rfl⟩

/-! ## C2: worker spawning and queue output -/

theorem mkWorkersFrom_length (ms : List String) (k : Nat) :
    (mkWorkersFrom k ms).length = ms.length := by
  induction ms generalizing k with
  | nil => rfl
  | cons u rest ih => simp [mkWorkersFrom, ih]

theorem mkWorkersFrom_getD (ms : List String) (k i : Nat) (hi : i < ms.length) :
    (mkWorkersFrom k ms).getD i ⟨"", 0⟩ = ⟨ms.getD i "", k + i⟩ := by
  induction ms generalizing k i with
  | nil => simp at hi
  | cons u rest ih =>
    cases i with
    | zero => rfl
    | succ j =>
      have hj : j < rest.length := by simpa using hi
      have := ih (k + 1) j hj
      simp only [mkWorkersFrom, List.getD_cons_succ, this]
      congr 1
      omega

/-- C2 counterexample: a worker that retrieves and parses its detail page but
finds no title / authors / yes24 id puts zero records on the result queue,
not exactly one. -/
theorem worker_zero_records_cex :
    workerQueuePuts ⟨"http://www.yes24.com/24/Goods/1234", 0⟩
        (.ok "<html></html>" (some {})) = [] ∧
    ¬ (workerQueuePuts ⟨"http://www.yes24.com/24/Goods/1234", 0⟩
        (.ok "<html></html>" (some {}))).length = 1 :=
  ⟨rfl, by decide⟩

/-- C2 (amended): `identify` creates exactly one worker per candidate URL,
with relevance equal to the candidate's position; each worker puts at most
one record on the result queue, and exactly one precisely when its fetched
page parses and passes the required title / authors / yes24-id guard. -/
theorem identify_workers_spawn_and_queue (ms : List String) (i : Nat)
    (hi : i < ms.length) (f : FetchOutcome) :
    (mkWorkers ms).length = ms.length ∧
    (mkWorkers ms).getD i ⟨"", 0⟩ = ⟨ms.getD i "", i⟩ ∧
    (workerQueuePuts ((mkWorkers ms).getD i ⟨"", 0⟩) f).length ≤ 1 ∧
    (∀ out, get_details (ms.getD i "") i f = some out →
      workerQueuePuts ((mkWorkers ms).getD i ⟨"", 0⟩) f = [out.mi]) ∧
    (get_details (ms.getD i "") i f = none →
      workerQueuePuts ((mkWorkers ms).getD i ⟨"", 0⟩) f = []) := by
  have hw : (mkWorkers ms).getD i ⟨"", 0⟩ = ⟨ms.getD i "", i⟩ := by
    simpa using mkWorkersFrom_getD ms 0 i hi
  refine ⟨mkWorkersFrom_length ms 0, hw, ?_, ?_, ?_⟩
  · rw [hw]
    simp only [workerQueuePuts]
    cases get_details (ms.getD i "") i f <;> simp
  · intro out hout
    rw [hw]
    simp only [workerQueuePuts, hout]
  · intro hout
    rw [hw]
    simp only [workerQueuePuts, hout]

theorem identify_workers_spawn_and_queue_witness :
    (mkWorkers ["u0", "u1"]).length = (["u0", "u1"] : List String).length ∧
    (mkWorkers ["u0", "u1"]).getD 1 ⟨"", 0⟩ = ⟨(["u0", "u1"] : List String).getD 1 "", 1⟩ ∧
    (workerQueuePuts ((mkWorkers ["u0", "u1"]).getD 1 ⟨"", 0⟩) (.failed .other)).length ≤ 1 ∧
    (∀ out, get_details ((["u0", "u1"] : List String).getD 1 "") 1 (.failed .other) = some out →
      workerQueuePuts ((mkWorkers ["u0", "u1"]).getD 1 ⟨"", 0⟩) (.failed .other) = [out.mi]) ∧
    (get_details ((["u0", "u1"] : List String).getD 1 "") 1 (.failed .other) = none →
      workerQueuePuts ((mkWorkers ["u0", "u1"]).getD 1 ⟨"", 0⟩) (.failed .other) = []) :=
  identify_workers_spawn_and_queue ["u0", "u1"] 1 (by decide) (.failed .other)

/-! ## C8: worker independence -/

theorem map_mkWorkersFrom_getD {α : Type} (f : Worker → α) (d : α)
    (ms : List String) (k i : Nat) (hi : i < ms.length) :
    ((mkWorkersFrom k ms).map f).getD i d = f ⟨ms.getD i "", k + i⟩ := by
  induction ms generalizing k i with
  | nil => simp at hi
  | cons u rest ih =>
    cases i with
    | zero => rfl
    | succ j =>
      have hj : j < rest.length := by simpa using hi
      simp only [mkWorkersFrom, List.map_cons, List.getD_cons_succ]
      rw [ih (k + 1) j hj]
      congr 2
      omega

/-- C8: each worker's queue output is a function only of its own URL, its own
fetched page and its own relevance index: two system runs whose fetch
outcomes agree at worker `i` (and may differ everywhere else) give worker `i`
the same output, namely `get_details` of its own URL, index and page. -/
theorem worker_output_noninterference (ms : List String)
    (pages pages2 : Nat → FetchOutcome) (i : Nat) (hi : i < ms.length)
    (hag : pages i = pages2 i) :
    (runWorkers ms pages).getD i none = (runWorkers ms pages2).getD i none ∧
    (runWorkers ms pages).getD i none = get_details (ms.getD i "") i (pages i) := by
  have h1 : (runWorkers ms pages).getD i none =
      get_details (ms.getD i "") (0 + i) (pages (0 + i)) :=
    map_mkWorkersFrom_getD
      (fun w => get_details w.url w.relevance (pages w.relevance)) none ms 0 i hi
  have h2 : (runWorkers ms pages2).getD i none =
      get_details (ms.getD i "") (0 + i) (pages2 (0 + i)) :=
    map_mkWorkersFrom_getD
      (fun w => get_details w.url w.relevance (pages2 w.relevance)) none ms 0 i hi
  simp only [Nat.zero_add] at h1 h2
  exact ⟨by rw [h1, h2, hag], h1⟩

theorem worker_output_noninterference_witness :
    (runWorkers ["u0", "u1"] (fun _ => .failed .other)).getD 0 none =
      (runWorkers ["u0", "u1"] (fun n => if n = 0 then .failed .other else .ok "x" none)).getD 0 none ∧
    (runWorkers ["u0", "u1"] (fun _ => .failed .other)).getD 0 none =
      get_details ((["u0", "u1"] : List String).getD 0 "") 0
        ((fun _ => FetchOutcome.failed .other) 0) :=
  worker_output_noninterference ["u0", "u1"] (fun _ => .failed .other)
    (fun n => if n = 0 then .failed .other else .ok "x" none) 0 (by decide) rfl

/-! ## C6: the shared caches -/

theorem lookup1_append_isSome (k : String) (pre l : List (String × String))
    (h : (lookup1 k l).isSome = true) :
    (lookup1 k (pre ++ l)).isSome = true := by
  induction pre with
  | nil => simpa using h
  | cons e rest ih =>
    obtain ⟨k2, v⟩ := e
    by_cases hk : k2 = k <;> simp [lookup1, hk, ih]

/-- C6 (amended): a worker run only prepends entries to the two caches, and
for identifiers that carry a yes24 id directly, once `get_cached_cover_url`
returns a URL it keeps returning one after any further worker run.  (For
ISBN-only identifiers this fails: a later run can remap the ISBN to a yes24
id that has no cached cover URL — see the counterexample.) -/
theorem cache_append_only_cover_url_persists (c : Cache) (ids : Identifiers)
    (url : String) (relevance : Nat) (f : FetchOutcome)
    (hy : strTruthy ids.yes24 = true)
    (h : (get_cached_cover_url c ids).isSome = true) :
    (∃ pre, (runWorkerOnCache c url relevance f).isbnToId = pre ++ c.isbnToId) ∧
    (∃ pre, (runWorkerOnCache c url relevance f).idToCover = pre ++ c.idToCover) ∧
    (get_cached_cover_url (runWorkerOnCache c url relevance f) ids).isSome = true := by
  obtain ⟨y, hyv⟩ : ∃ y, ids.yes24 = some y := by
    cases hyv : ids.yes24 with
    | none => rw [hyv] at hy; simp [strTruthy] at hy
    | some y => exact ⟨y, rfl⟩
  have hne : ¬y = "" := by
    rw [hyv] at hy
    by_contra he
    simp [strTruthy, he] at hy
  obtain ⟨p1, hp1, p2, hp2⟩ :
      ∃ p1, (runWorkerOnCache c url relevance f).isbnToId = p1 ++ c.isbnToId ∧
      ∃ p2, (runWorkerOnCache c url relevance f).idToCover = p2 ++ c.idToCover := by
    cases hout : get_details url relevance f with
    | none => exact ⟨[], by simp [runWorkerOnCache, hout], [], by simp [runWorkerOnCache, hout]⟩
    | some out =>
      refine ⟨(match out.isbnCacheAdd with | some e => [e] | none => []),
        by simp [runWorkerOnCache, hout, cacheApply],
        (match out.coverCacheAdd with | some e => [e] | none => []),
        by simp [runWorkerOnCache, hout, cacheApply]⟩
  refine ⟨⟨p1, hp1⟩, ⟨p2, hp2⟩, ?_⟩
  rw [get_cached_cover_url] at h ⊢
  simp only [hyv, hne, if_false] at h ⊢
  rw [hp2]
  exact lookup1_append_isSome y p2 c.idToCover h

/-- Concrete worker runs used by the C6 counterexample and witness: worker A
caches `isbn → 72289` together with a cover URL for `72289`; worker B (same
ISBN text on its page, no `og:image`) then remaps the ISBN to `99999`. -/
def pageA : Page :=
  { h1aText := some (some "해리포터와 마법사의 돌 1")
    titlePText := some "조앤.K.롤링 | 김영사"
    isbn10Text := some (some "9788983920683")
    ogImage := some "http://image.yes24.com/goods/72289/M" }

def urlA : String := "http://www.yes24.com/24/Goods/72289"

def pageB : Page :=
  { h1aText := some (some "해리포터와 마법사의 돌 1")
    titlePText := some "조앤.K.롤링 | 김영사"
    isbn10Text := some (some "9788983920683") }

def urlB : String := "http://www.yes24.com/24/Goods/99999"

def cacheAfterA : Cache := runWorkerOnCache {} urlA 0 (.ok "x" (some pageA))

def cacheAfterB : Cache := runWorkerOnCache cacheAfterA urlB 1 (.ok "x" (some pageB))

def isbnOnlyIds : Identifiers := { isbn := some "9788983920683" }

/-- C6 counterexample: after worker A, `get_cached_cover_url` returns a URL
for the ISBN-only identifiers, but a further worker run (B) makes it return
`None` — the cached answer does not persist, because B's
`cache_isbn_to_identifier` overwrites the ISBN's yes24 id. -/
theorem cache_cover_url_not_persistent_cex :
    get_cached_cover_url cacheAfterA isbnOnlyIds =
      some "http://image.yes24.com/goods/72289/L" ∧
    get_cached_cover_url cacheAfterB isbnOnlyIds = none :=
  ⟨rfl, rfl⟩

def yes24OnlyIds : Identifiers := { yes24 := some "72289" }

theorem cache_append_only_cover_url_persists_witness :
    (∃ pre, (runWorkerOnCache cacheAfterA urlB 1 (.ok "x" (some pageB))).isbnToId =
      pre ++ cacheAfterA.isbnToId) ∧
    (∃ pre, (runWorkerOnCache cacheAfterA urlB 1 (.ok "x" (some pageB))).idToCover =
      pre ++ cacheAfterA.idToCover) ∧
    (get_cached_cover_url (runWorkerOnCache cacheAfterA urlB 1 (.ok "x" (some pageB)))
      yes24OnlyIds).isSome = true :=
  cache_append_only_cover_url_persists cacheAfterA yes24OnlyIds urlB 1
    (.ok "x" (some pageB)) rfl rfl

/-! ## C3: the wait loop -/

theorem innerLoop_fst_le (s : Nat → Snap) (ws : List Nat) (t : Nat) (acc : Bool) :
    t ≤ (innerLoop s ws t acc).1 := by
  induction ws generalizing t acc with
  | nil => exact Nat.le_refl t
  | cons i rest ih =>
    simp only [innerLoop]
    by_cases ha : (s t).abort
    · simp [ha]
    · simp only [ha, if_false]
      exact Nat.le_trans (by omega) (ih (t + 2) _)

theorem innerLoop_acc_true (s : Nat → Snap) (ws : List Nat) (t : Nat) :
    (innerLoop s ws t true).2 = true := by
  induction ws generalizing t with
  | nil => rfl
  | cons i rest ih =>
    simp only [innerLoop]
    by_cases ha : (s t).abort
    · simp [ha]
    · simp only [ha, if_false, Bool.true_or]
      exact ih (t + 2)

theorem deadPersist (s : Nat → Snap)
    (hDead : ∀ u i, aliveAt (s u) i = false → aliveAt (s (u + 1)) i = false)
    (i t1 t2 : Nat) (h12 : t1 ≤ t2) (h : aliveAt (s t1) i = false) :
    aliveAt (s t2) i = false := by
  induction h12 with
  | refl => exact h
  | step _ ih => exact hDead _ i ih

theorem innerLoop_false_sound (s : Nat → Snap)
    (hDead : ∀ u i, aliveAt (s u) i = false → aliveAt (s (u + 1)) i = false)
    (ws : List Nat) (t : Nat) (acc : Bool) (tr : Nat)
    (heq : innerLoop s ws t acc = (tr, false)) :
    (s tr).abort = true ∨ ∀ i ∈ ws, aliveAt (s tr) i = false := by
  induction ws generalizing t acc with
  | nil =>
    simp only [innerLoop, Prod.mk.injEq] at heq
    right
    simp [heq.1]
  | cons i rest ih =>
    simp only [innerLoop] at heq
    by_cases ha : (s t).abort
    · rw [if_pos ha] at heq
      obtain ⟨h1, _⟩ := Prod.mk.injEq .. ▸ heq
      left
      rw [← h1]
      exact ha
    · rw [if_neg ha] at heq
      have hacc : (acc || aliveAt (s (t + 1)) i) = false := by
        by_contra hne
        have htrue : (acc || aliveAt (s (t + 1)) i) = true := by
          cases hb : (acc || aliveAt (s (t + 1)) i)
          · exact absurd hb hne
          · rfl
        rw [htrue] at heq
        have := innerLoop_acc_true s rest (t + 2)
        rw [heq] at this
        simp at this
      have htr : t + 1 ≤ tr := by
        have h1 := innerLoop_fst_le s rest (t + 2) (acc || aliveAt (s (t + 1)) i)
        rw [heq] at h1
        omega
      rcases ih (t + 2) (acc || aliveAt (s (t + 1)) i) heq with habort | hAllDead
      · exact Or.inl habort
      · right
        intro j hj
        rcases List.mem_cons.mp hj with hj | hj
        · subst hj
          have hia : aliveAt (s (t + 1)) j = false := by
            rcases Bool.or_eq_false_iff.mp hacc with ⟨_, h2⟩
            exact h2
          exact deadPersist s hDead j (t + 1) tr htr hia
        · exact hAllDead j hj

theorem identifyWait_sound (s : Nat → Snap) (ws : List Nat)
    (hDead : ∀ u i, aliveAt (s u) i = false → aliveAt (s (u + 1)) i = false)
    (fuel t te : Nat) (hrun : identifyWait s ws fuel t = some te) :
    (s te).abort = true ∨ ∀ i ∈ ws, aliveAt (s te) i = false := by
  induction fuel generalizing t with
  | zero => simp [identifyWait] at hrun
  | succ n ih =>
    rw [identifyWait] at hrun
    by_cases ha : (s t).abort
    · rw [if_pos ha] at hrun
      left
      rw [← Option.some.injEq .. |>.mp hrun]
      exact ha
    · rw [if_neg ha] at hrun
      rcases hil : innerLoop s ws (t + 1) false with ⟨tNext, acc⟩
      rw [hil] at hrun
      cases acc with
      | true => exact ih tNext (by simpa using hrun)
      | false =>
        simp only [if_false, Bool.false_eq_true, Option.some.injEq] at hrun
        rw [← hrun]
        exact innerLoop_false_sound s hDead ws (t + 1) false tNext hil

/-- C3: the `identify` wait loop returns only when the abort flag is set at
the exit observation or every worker has been seen dead (and, threads never
resurrecting, is still dead then); when abort is already set at the while
check it stops immediately, and a set abort flag also makes the inner sweep
break at its very next check instead of joining the remaining workers. -/
theorem identify_wait_abort_or_all_dead (s : Nat → Snap) (ws : List Nat)
    (fuel t te : Nat)
    (hDead : ∀ u i, aliveAt (s u) i = false → aliveAt (s (u + 1)) i = false)
    (hrun : identifyWait s ws fuel t = some te) :
    ((s te).abort = true ∨ ∀ i ∈ ws, aliveAt (s te) i = false) ∧
    ((s t).abort = true → te = t) ∧
    (∀ u acc j rest, (s u).abort = true →
      innerLoop s (j :: rest) u acc = (u, acc)) := by
  refine ⟨identifyWait_sound s ws hDead fuel t te hrun, ?_, ?_⟩
  · intro ha
    cases fuel with
    | zero => simp [identifyWait] at hrun
    | succ n =>
      rw [identifyWait, if_pos ha] at hrun
      exact (Option.some.injEq .. |>.mp hrun).symm
  · intro u acc j rest ha
    simp [innerLoop, ha]

def waitSnapAllDead : Nat → Snap := fun _ => ⟨false, [false]⟩

theorem identify_wait_abort_or_all_dead_witness :
    ((waitSnapAllDead 3).abort = true ∨
      ∀ i ∈ ([0] : List Nat), aliveAt (waitSnapAllDead 3) i = false) ∧
    ((waitSnapAllDead 0).abort = true → (3 : Nat) = 0) ∧
    (∀ u acc j rest, (waitSnapAllDead u).abort = true →
      innerLoop waitSnapAllDead (j :: rest) u acc = (u, acc)) :=
  identify_wait_abort_or_all_dead waitSnapAllDead [0] 1 0 3
    (fun _ _ h => h) rfl

end Yes24
